import Mathlib

/-!
Shallow embedding of `src/implementation/src/models/neuro_symbolic_classifier.py`
(classes `NeuroSymbolicClassifier`, `SimpleReasoner`, `AttentionFusion`) over the
base classes of `src/implementation/src/core/base/__init__.py`.

Floating-point tensors are modelled as lists of real numbers (idealized real
arithmetic); fallible Python code returns `Except PyErr`; the global torch RNG
is modelled as an explicit stream `g : Nat → ℝ` with a counter threaded through
every call that draws randomness, mirroring the order in which the source
consumes the generator.
-/

namespace NeuroSym

/-- Python exception classes that the embedded code can raise.  `valueError`
carries the message string of the corresponding `raise ValueError(...)`. -/
inductive PyErr where
  | typeError
  | indexError
  | valueError (msg : String)
  | runtimeError
  | assertionError
deriving DecidableEq, Repr

/-- The configuration dictionary passed to `NeuroSymbolicClassifier.__init__`.
Each documented key is an `Option` (a key may be absent from the dict); the
training hyperparameters are read with defaults inside `fit`. -/
structure PyConfig where
  input_size : Option Nat
  hidden_layers : Option (List Nat)
  num_classes : Option Nat
  symbolic_rules : List String
  reasoning_engine : Option String
  integration_method : Option String
  epochs : Option Nat
  batch_size : Option Nat

/-- `config.get('hidden_layers', [256, 128, 64])`. -/
def hiddenLayersOf (c : PyConfig) : List Nat :=
  c.hidden_layers.getD [256, 128, 64]

/-- `config.get('integration_method', 'late_fusion')`. -/
def integrationOf (c : PyConfig) : String :=
  c.integration_method.getD "late_fusion"

/-- `NeuroSymbolicClassifier._build_neural_network`.  The first statement is
`nn.Linear(self.input_size, self.hidden_layers[0])`: with an explicitly empty
`hidden_layers` list the subscript raises `IndexError` (the second argument is
evaluated before the call), and with a missing `input_size` (so `None`)
`nn.Linear` raises `TypeError`.  Otherwise the layer stack is created; the
layer modules themselves are value-irrelevant here because construction never
gets past `_build_symbolic_reasoner` (see below), so the result type is
`Unit`. -/
def buildNeuralNetwork (c : PyConfig) : Except PyErr Unit :=
  match hiddenLayersOf c, c.input_size with
  | [], _ => .error .indexError
  | _ :: _, none => .error .typeError
  | _ :: _, some _ => .ok ()

/-- `NeuroSymbolicClassifier._build_symbolic_reasoner` calls
`SimpleReasoner(rules=self.symbolic_rules, engine=self.reasoning_engine)`,
but `SimpleReasoner.__init__(self, config)` accepts a single positional
configuration dictionary and no `rules=` / `engine=` keywords, so the call
unconditionally raises `TypeError` (unexpected keyword argument). -/
def buildSymbolicReasoner (_c : PyConfig) : Except PyErr Unit :=
  .error .typeError

/-- `NeuroSymbolicClassifier._build_integration_layer`.  `late_fusion` builds
`nn.Linear(hidden[-1] + 32, 128)` then `nn.Linear(128, num_classes)` (a missing
class count is `None` and raises `TypeError`); `attention_fusion` builds
`AttentionFusion`, whose `nn.MultiheadAttention(embed_dim = hidden[-1] + 32,
num_heads = 8)` raises `AssertionError` unless 8 divides the embedding width,
followed by the same output stack; any other method raises `ValueError`.
The symbolic width 32 is `SimpleReasoner.get_output_size()` (hard-coded 32).
This code is unreachable through `construct` because `_build_symbolic_reasoner`
raises first. -/
def buildIntegrationLayer (c : PyConfig) : Except PyErr Unit :=
  if integrationOf c = "late_fusion" then
    match c.num_classes with
    | none => .error .typeError
    | some _ => .ok ()
  else if integrationOf c = "attention_fusion" then
    match (hiddenLayersOf c).getLast? with
    | none => .error .indexError
    | some h =>
      if (h + 32) % 8 = 0 then
        match c.num_classes with
        | none => .error .typeError
        | some _ => .ok ()
      else .error .assertionError
  else .error (.valueError ("Unknown integration method: " ++ integrationOf c))

/-- `NeuroSymbolicClassifier.__init__` after `BaseModel.__init__`: build the
neural network, then the symbolic reasoner, then the integration layer, in the
source's order.  No success value is ever produced (the reasoner build always
raises), so the payload type is `Unit`. -/
def construct (c : PyConfig) : Except PyErr Unit := do
  buildNeuralNetwork c
  buildSymbolicReasoner c
  buildIntegrationLayer c

/-! ### The symbolic reasoner (`SimpleReasoner`) -/

/-- The state of a `SimpleReasoner` instance: `self.rules` and
`self.output_size` (set to 32, the default symbolic representation size, by
`__init__`; kept as a field so that theorems quantify over the configured
size). -/
structure SimpleReasoner where
  rules : List String
  output_size : Nat
deriving Repr

/-- The dictionary returned by `SimpleReasoner.reason`.  A key that the source
only sets on some branches is an `Option` (`None` models an absent key); the
`facts` echo is kept as the feature vectors it carries. -/
structure ReasonResult where
  facts : List (List ℝ)
  query : String
  rules_applied : List String
  features : Option (List ℝ)
  steps : List String
  confidence : Option ℝ

/-- `torch.randn(n)` under the explicit generator model: the next `n` draws of
the stream `g`, starting at counter `ctr`. -/
def randn (g : Nat → ℝ) (ctr n : Nat) : List ℝ :=
  (List.range n).map (fun j => g (ctr + j))

/-- `SimpleReasoner.reason(facts, query)`.  For `"classify"` it draws
`torch.randn(self.output_size)` (advancing the generator counter); for
`"explain_classification"` it returns the canned two-rule trace with
confidence 0.85; any other query returns the bare result dictionary. -/
def SimpleReasoner.reason (r : SimpleReasoner) (facts : List (List ℝ))
    (query : String) (g : Nat → ℝ) (ctr : Nat) : ReasonResult × Nat :=
  if query = "classify" then
    ({ facts := facts, query := query, rules_applied := [],
       features := some (randn g ctr r.output_size), steps := [],
       confidence := none }, ctr + r.output_size)
  else if query = "explain_classification" then
    ({ facts := facts, query := query, rules_applied := ["rule_1", "rule_2"],
       features := none,
       steps := ["Analyze features", "Apply rules", "Conclude"],
       confidence := some 0.85 }, ctr)
  else
    ({ facts := facts, query := query, rules_applied := [], features := none,
       steps := [], confidence := none }, ctr)

/-- `SimpleReasoner.add_knowledge`. -/
def SimpleReasoner.add_knowledge (r : SimpleReasoner)
    (knowledgeRules : List String) : SimpleReasoner :=
  { r with rules := r.rules ++ knowledgeRules }

/-- `SimpleReasoner.get_output_size`. -/
def SimpleReasoner.get_output_size (r : SimpleReasoner) : Nat :=
  r.output_size

/-! ### Tensors, layers and the model state

A batch is a list of rows; a row is a list of reals.  An `nn.Linear` module is
its weight matrix (one list per output feature), bias vector, and its
`in_features` shape (part of the tensor shape even when the matrix has no
rows); applying it to an input of the wrong width raises the shape
`RuntimeError` that torch raises at the matrix multiply. -/

/-- Dot product of two vectors (`zipWith (*)` then sum). -/
def dot (w x : List ℝ) : ℝ :=
  (List.zipWith (fun a b => a * b) w x).sum

/-- An `nn.Linear(inF, out)` module: `weight` has `out` rows of length `inF`,
`bias` has length `out`. -/
structure Linear where
  inF : Nat
  weight : List (List ℝ)
  bias : List ℝ

/-- `nn.Linear.forward` on one row: shape check, then `W x + b`. -/
def Linear.apply (l : Linear) (x : List ℝ) : Except PyErr (List ℝ) :=
  if x.length = l.inF then
    .ok (List.zipWith (fun row b => dot row x + b) l.weight l.bias)
  else .error .runtimeError

/-- `nn.ReLU` on one row. -/
def relu (x : List ℝ) : List ℝ :=
  x.map (fun t => max 0 t)

/-- train/eval mode of the module tree (`self.train()` / `self.eval()`). -/
inductive Mode where
  | train
  | eval
deriving DecidableEq

/-- `nn.Dropout(0.2)` on one row.  In eval mode it is the identity and draws
nothing; in train mode each element is zeroed when its Bernoulli draw from the
generator falls below p = 0.2 and otherwise rescaled by 1/(1-p), consuming one
draw per element.  (The source applies dropout to the whole batch tensor at
once; drawing per row only reorders the stream consumption, which no claim
observes.) -/
noncomputable def dropout (mode : Mode) (g : Nat → ℝ) (ctr : Nat)
    (x : List ℝ) : List ℝ × Nat :=
  match mode with
  | .eval => (x, ctr)
  | .train =>
    (x.mapIdx (fun i v => if g (ctr + i) < 0.2 then 0 else v / (1 - 0.2)),
     ctr + x.length)

/-- The integration layer built by `_build_integration_layer`:
`late_fusion` is `Sequential(Linear(h+32,128), ReLU, Dropout, Linear(128,C))`;
`attention_fusion` is an `AttentionFusion` module, i.e. a single-token
`nn.MultiheadAttention` (projections `qProj`/`kProj`/`vProj` and `outProj`)
followed by the same output stack. -/
inductive IntegrationLayer where
  | lateFusion (l1 l2 : Linear)
  | attentionFusion (qProj kProj vProj outProj l1 l2 : Linear)

/-- The model state of a `NeuroSymbolicClassifier` instance: the encoder
`nn.Sequential` exactly as `_build_neural_network` lays it out (input layer,
middle layers, final `Linear(hidden[-1], hidden[-1])`), the symbolic reasoner,
the integration layer with its method tag, the `is_trained` flag from
`BaseModel`, and the training hyperparameters read from the configuration
(with their `config.get` defaults applied). -/
structure Model where
  firstLayer : Linear
  midLayers : List Linear
  lastLayer : Linear
  reasoner : SimpleReasoner
  integration_method : String
  integration : IntegrationLayer
  is_trained : Bool
  epochs : Nat
  batch_size : Nat

/-- The middle `Linear, ReLU, Dropout` triples of the encoder stack, applied
in sequence. -/
noncomputable def midLayersForward (mode : Mode) (g : Nat → ℝ) :
    List Linear → List ℝ × Nat → Except PyErr (List ℝ × Nat)
  | [], st => .ok st
  | l :: ls, (a, c) => do
    let h ← l.apply a
    midLayersForward mode g ls (dropout mode g c (relu h))

/-- The encoder `nn.Sequential` on one row:
`Linear, ReLU, Dropout` for the input layer, the same triple for every middle
layer, then `Linear(hidden[-1], hidden[-1]), ReLU`. -/
noncomputable def encoderForward (m : Model) (mode : Mode) (g : Nat → ℝ)
    (x : List ℝ) (ctr : Nat) : Except PyErr (List ℝ × Nat) := do
  let h1 ← m.firstLayer.apply x
  let (a2, c2) ← midLayersForward mode g m.midLayers
    (dropout mode g ctr (relu h1))
  let hLast ← m.lastLayer.apply a2
  pure (relu hLast, c2)

/-- The encoder applied to every row of the batch in order
(`self.neural_network(X)`), threading the generator counter. -/
noncomputable def encodeRows (m : Model) (mode : Mode) (g : Nat → ℝ) :
    List (List ℝ) → Nat → Except PyErr (List (List ℝ) × Nat)
  | [], ctr => .ok ([], ctr)
  | x :: xs, ctr => do
    let (h, c1) ← encoderForward m mode g x ctr
    let (rest, c2) ← encodeRows m mode g xs c1
    pure (h :: rest, c2)

/-- One iteration of the symbolic loop in `_forward_pass`: call
`reason(facts=[{"features": X[i]}], query="classify")` and take
`result.get("features", torch.zeros(output_size))`. -/
def symbolicRow (r : SimpleReasoner) (x : List ℝ) (g : Nat → ℝ)
    (ctr : Nat) : List ℝ × Nat :=
  let (res, c) := r.reason [x] "classify" g ctr
  (res.features.getD (List.replicate r.output_size 0), c)

/-- The symbolic loop of `_forward_pass` over the whole batch. -/
def symbolicRows (r : SimpleReasoner) (g : Nat → ℝ) :
    List (List ℝ) → Nat → List (List ℝ) × Nat
  | [], ctr => ([], ctr)
  | x :: xs, ctr =>
    let (s, c1) := symbolicRow r x g ctr
    let (rest, c2) := symbolicRows r g xs c1
    (s :: rest, c2)

/-- The integration stage of `_forward_pass` on one (neural, symbolic) row
pair.  `late_fusion` concatenates and runs the dense stack; for
`attention_fusion` the concatenated row is a single-token sequence, whose
self-attention weight is `softmax` of a single score, i.e. the constant 1, so
the attended vector is `outProj (vProj combined)` (the query/key projections
cancel out for sequence length one), followed by the dense stack. -/
noncomputable def integrateRow (m : Model) (mode : Mode) (g : Nat → ℝ)
    (nf sf : List ℝ) (ctr : Nat) : Except PyErr (List ℝ × Nat) := do
  let combined := nf ++ sf
  match m.integration with
  | .lateFusion l1 l2 => do
    let h1 ← l1.apply combined
    let (a1, c1) := dropout mode g ctr (relu h1)
    let out ← l2.apply a1
    pure (out, c1)
  | .attentionFusion _ _ vProj outProj l1 l2 => do
    let v ← vProj.apply combined
    let attended ← outProj.apply v
    let h1 ← l1.apply attended
    let (a1, c1) := dropout mode g ctr (relu h1)
    let out ← l2.apply a1
    pure (out, c1)

/-- The integration stage over the whole batch. -/
noncomputable def integrateRows (m : Model) (mode : Mode) (g : Nat → ℝ) :
    List (List ℝ × List ℝ) → Nat → Except PyErr (List (List ℝ) × Nat)
  | [], ctr => .ok ([], ctr)
  | p :: ps, ctr => do
    let (o, c1) ← integrateRow m mode g p.1 p.2 ctr
    let (rest, c2) ← integrateRows m mode g ps c1
    pure (o :: rest, c2)

/-- `NeuroSymbolicClassifier._forward_pass`: encoder on the batch, the
symbolic loop, then integration row by row. -/
noncomputable def forwardPass (m : Model) (mode : Mode) (g : Nat → ℝ)
    (X : List (List ℝ)) (ctr : Nat) : Except PyErr (List (List ℝ) × Nat) := do
  let (nf, c1) ← encodeRows m mode g X ctr
  let (sf, c2) := symbolicRows m.reasoner g X c1
  integrateRows m mode g (nf.zip sf) c2

/-! ### Prediction -/

/-- Tail of `torch.argmax` over one row: scan the remaining entries, replacing
the current best index only on a strictly larger value, so ties keep the first
maximal index. -/
noncomputable def argmaxGo : List ℝ → Nat → Nat → ℝ → Nat
  | [], _, best, _ => best
  | x :: xs, i, best, bv =>
    if bv < x then argmaxGo xs (i + 1) i x else argmaxGo xs (i + 1) best bv

/-- `torch.argmax(row)`: index of the first maximal entry (0 on an empty
row, which torch itself rejects; predictions are only taken on nonempty
logit rows). -/
noncomputable def argmaxIdx (v : List ℝ) : Nat :=
  match v with
  | [] => 0
  | x :: xs => argmaxGo xs 1 0 x

/-- `torch.softmax(row, dim=1)` on one row. -/
noncomputable def softmax (v : List ℝ) : List ℝ :=
  v.map (fun x => Real.exp x / (v.map Real.exp).sum)

/-- The `ValueError` message of the `predict` / `predict_proba` guard. -/
def notTrainedPredictMsg : String :=
  "Model must be trained before making predictions"

/-- The `ValueError` message of the `explain` guard. -/
def notTrainedExplainMsg : String :=
  "Model must be trained before providing explanations"

/-- `NeuroSymbolicClassifier.predict`: guard on `is_trained`, eval-mode
forward pass under `torch.no_grad()`, then per-row argmax. -/
noncomputable def Model.predict (m : Model) (X : List (List ℝ)) (g : Nat → ℝ)
    (ctr : Nat) : Except PyErr (List Nat × Nat) :=
  if m.is_trained then do
    let (out, c) ← forwardPass m .eval g X ctr
    pure (out.map argmaxIdx, c)
  else .error (.valueError notTrainedPredictMsg)

/-- `NeuroSymbolicClassifier.predict_proba`: guard on `is_trained`, eval-mode
forward pass, then per-row softmax. -/
noncomputable def Model.predictProba (m : Model) (X : List (List ℝ))
    (g : Nat → ℝ) (ctr : Nat) : Except PyErr (List (List ℝ) × Nat) :=
  if m.is_trained then do
    let (out, c) ← forwardPass m .eval g X ctr
    pure (out.map softmax, c)
  else .error (.valueError notTrainedPredictMsg)

/-! ### Explanation (`explain`, `_get_neural_importance`,
`_get_symbolic_reasoning`, `_combine_explanations`) -/

/-- `np.mean` of a list (division by zero yields Lean's 0; the source only
averages nonempty data). -/
noncomputable def mean (l : List ℝ) : ℝ :=
  l.sum / l.length

/-- Backward of `ReLU` at pre-activation `z` applied to incoming cotangent
`v`: torch's ReLU gradient is 1 on positive inputs and 0 elsewhere. -/
noncomputable def reluMask (z v : List ℝ) : List ℝ :=
  List.zipWith (fun zi vi => if 0 < zi then vi else 0) z v

/-- Elementwise vector sum. -/
def vecAdd (a b : List ℝ) : List ℝ :=
  List.zipWith (fun x y => x + y) a b

/-- Backward of `nn.Linear`: multiply the cotangent by the transposed weight
matrix, i.e. sum `v i • row i` into a vector of the layer's input width. -/
def matTvec (l : Linear) (v : List ℝ) : List ℝ :=
  (List.zipWith (fun row vi => row.map (fun a => vi * a)) l.weight v).foldl
    vecAdd (List.replicate l.inF 0)

/-- Eval-mode forward through the encoder on one row keeping the
pre-activations needed for the backward pass: the input layer's
pre-activation, each middle layer paired with its pre-activation, and the
final layer's pre-activation (dropout is the identity in eval mode). -/
noncomputable def encoderPre (m : Model) (x : List ℝ) :
    Except PyErr (List ℝ × List (Linear × List ℝ) × List ℝ) := do
  let z1 ← m.firstLayer.apply x
  let (pairs, aLast) ← m.midLayers.foldlM
    (fun (acc : List (Linear × List ℝ) × List ℝ) l => do
      let z ← l.apply acc.2
      pure (acc.1 ++ [(l, z)], relu z))
    ([], relu z1)
  let zLast ← m.lastLayer.apply aLast
  pure (z1, pairs, zLast)

/-- The gradient of `torch.sum(self.neural_network(X))` with respect to one
input row (`_get_neural_importance` backpropagates the summed encoder output,
so the seed cotangent is the all-ones vector). -/
noncomputable def gradRow (m : Model) (x : List ℝ) : Except PyErr (List ℝ) := do
  let (z1, pairs, zLast) ← encoderPre m x
  let v0 := reluMask zLast (List.replicate zLast.length 1)
  let v1 := matTvec m.lastLayer v0
  let v2 := pairs.reverse.foldl (fun v lz => matTvec lz.1 (reluMask lz.2 v)) v1
  pure (matTvec m.firstLayer (reluMask z1 v2))

/-- The `neural_importance` dictionary of `explain`. -/
structure NeuralImportance where
  feature_names : List String
  importance_scores : List ℝ
  most_important : String

/-- The `symbolic_reasoning` dictionary of `explain`. -/
structure SymbolicExpl where
  rules_applied : List String
  reasoning_steps : List String
  confidence : ℝ

/-- The dictionary returned by `explain`, with the fields of
`_combine_explanations` inlined. -/
structure Explanation where
  neural_importance : NeuralImportance
  symbolic_reasoning : SymbolicExpl
  primary_features : String
  symbolic_rules : List String
  confidence : ℝ
  explanation : String

/-- `NeuroSymbolicClassifier._get_neural_importance`: per-feature mean of the
absolute input gradients across the batch, named `feature_i`, reporting the
argmax feature.  Column width is the row width of the batch
(`X.shape[1]`). -/
noncomputable def getNeuralImportance (m : Model) (X : List (List ℝ)) :
    Except PyErr NeuralImportance := do
  let w := (X.headD []).length
  let names := (List.range w).map (fun i => "feature_" ++ toString i)
  let grads ← X.mapM (gradRow m)
  let scores := (List.range w).map
    (fun j => mean (grads.map (fun gr => |gr.getD j 0|)))
  pure { feature_names := names, importance_scores := scores,
         most_important := names.getD (argmaxIdx scores) "" }

/-- `NeuroSymbolicClassifier._get_symbolic_reasoning`: reason over the first
instance only with the `"explain_classification"` query (`X_values[0]` raises
`IndexError` on an empty batch); missing keys default as in the source
(`.get("confidence", 0.0)`). -/
def getSymbolicReasoning (m : Model) (X : List (List ℝ)) (g : Nat → ℝ)
    (ctr : Nat) : Except PyErr (SymbolicExpl × Nat) :=
  match X with
  | [] => .error .indexError
  | x0 :: _ =>
    let (res, c) := m.reasoner.reason [x0] "explain_classification" g ctr
    .ok ({ rules_applied := res.rules_applied, reasoning_steps := res.steps,
           confidence := res.confidence.getD 0 }, c)

/-- `NeuroSymbolicClassifier.explain`: guard on `is_trained`, neural
importance first, then the symbolic trace, then the combined narrative
(the source interpolates the Python list display of the rules; the rule
names are joined here). -/
noncomputable def Model.explain (m : Model) (X : List (List ℝ)) (g : Nat → ℝ)
    (ctr : Nat) : Except PyErr (Explanation × Nat) :=
  if m.is_trained then do
    let ni ← getNeuralImportance m X
    let (sr, c1) ← getSymbolicReasoning m X g ctr
    pure ({ neural_importance := ni, symbolic_reasoning := sr,
            primary_features := ni.most_important,
            symbolic_rules := sr.rules_applied,
            confidence := sr.confidence,
            explanation := "Primary features " ++ ni.most_important ++
              " triggered rules: " ++
              String.intercalate ", " sr.rules_applied }, c1)
  else .error (.valueError notTrainedExplainMsg)

/-! ### Evaluation (`evaluate` and its sklearn metrics) -/

/-- `sklearn.metrics.accuracy_score`. -/
noncomputable def accuracyScore (y p : List ℤ) : ℝ :=
  mean (List.zipWith (fun a b => if a = b then (1 : ℝ) else 0) y p)

/-- True positives of class `c`. -/
def truePos (y p : List ℤ) (c : ℤ) : Nat :=
  (y.zip p).countP (fun q => q.1 = c && q.2 = c)

/-- Per-class precision with sklearn's zero-division-to-0 behaviour. -/
noncomputable def precClass (y p : List ℤ) (c : ℤ) : ℝ :=
  if p.count c = 0 then 0 else (truePos y p c : ℝ) / (p.count c : ℝ)

/-- Per-class recall with sklearn's zero-division-to-0 behaviour. -/
noncomputable def recallClass (y p : List ℤ) (c : ℤ) : ℝ :=
  if y.count c = 0 then 0 else (truePos y p c : ℝ) / (y.count c : ℝ)

/-- Per-class F1. -/
noncomputable def f1Class (y p : List ℤ) (c : ℤ) : ℝ :=
  if precClass y p c + recallClass y p c = 0 then 0
  else 2 * precClass y p c * recallClass y p c /
    (precClass y p c + recallClass y p c)

/-- Support-weighted average of a per-class metric over the label set
(the union of true and predicted labels, as sklearn uses). -/
noncomputable def weightedAvg (y p : List ℤ) (metric : ℤ → ℝ) : ℝ :=
  (((y ++ p).dedup).map (fun c => (y.count c : ℝ) * metric c)).sum /
    (y.length : ℝ)

/-- `np.max(row)` (`0` on the empty row, which numpy rejects). -/
noncomputable def rowMax (r : List ℝ) : ℝ :=
  r.foldl max (r.headD 0)

/-- `NeuroSymbolicClassifier._calculate_explainability_score`: mean of the
per-row maximum predicted probability. -/
noncomputable def explainabilityScore (probs : List (List ℝ)) : ℝ :=
  mean (probs.map rowMax)

/-- `NeuroSymbolicClassifier._calculate_robustness_score`: perturb the inputs
with `np.random.normal(0, 0.01, X.shape)` (numpy's generator is modelled as
the separate stream `npg`, indexed by position, scaled by the σ = 0.01), run
`predict` on the original and on the perturbed batch — two separate calls, so
the second consumes the torch generator where the first left it — and return
the fraction of unchanged predictions.  `y` is accepted and unused, as in the
source. -/
noncomputable def gaussNoise (npg : Nat → Nat → ℝ) (X : List (List ℝ)) :
    List (List ℝ) :=
  X.mapIdx (fun i row => row.mapIdx (fun j _ => 0.01 * npg i j))

noncomputable def calculateRobustnessScore (m : Model) (X : List (List ℝ))
    (_y : List ℤ) (npg : Nat → Nat → ℝ) (g : Nat → ℝ) (ctr : Nat) :
    Except PyErr (ℝ × Nat) := do
  let perturbed := List.zipWith (List.zipWith (fun a b => a + b)) X
    (gaussNoise npg X)
  let (orig, c1) ← m.predict X g ctr
  let (pert, c2) ← m.predict perturbed g c1
  pure (mean (List.zipWith (fun a b => if a = b then (1 : ℝ) else 0)
    orig pert), c2)

/-- The dictionary returned by `evaluate`. -/
structure EvalReport where
  accuracy : ℝ
  precision : ℝ
  recallMetric : ℝ  -- the "recall" key (recall is a reserved word here)
  f1_score : ℝ
  explainability_score : ℝ
  robustness_score : ℝ

/-- `NeuroSymbolicClassifier.evaluate`: predictions (the `is_trained` guard
fires inside this first `predict` call), probabilities, then the metric
dictionary in the source's evaluation order. -/
noncomputable def Model.evaluate (m : Model) (X : List (List ℝ)) (y : List ℤ)
    (npg : Nat → Nat → ℝ) (g : Nat → ℝ) (ctr : Nat) :
    Except PyErr (EvalReport × Nat) := do
  let (predsN, c1) ← m.predict X g ctr
  let preds : List ℤ := predsN.map (fun k => (k : ℤ))
  let (probs, c2) ← m.predictProba X g c1
  let (rob, c3) ← calculateRobustnessScore m X y npg g c2
  pure ({ accuracy := accuracyScore y preds,
          precision := weightedAvg y preds (precClass y preds),
          recallMetric := weightedAvg y preds (recallClass y preds),
          f1_score := weightedAvg y preds (f1Class y preds),
          explainability_score := explainabilityScore probs,
          robustness_score := rob }, c3)

/-! ### Training (`fit`)

`fit` reads `learning_rate`, `epochs` and `batch_size` from the configuration
(the `epochs` / `batch_size` fields of `Model` carry the values of those
`config.get` reads), builds `Adam` and `CrossEntropyLoss`, wraps the data in a
shuffling `DataLoader`, and iterates.  The optimizer update
(`zero_grad` / `backward` / `step` with its internal moment state) is
abstracted as the parameter `step` over an opaque optimizer state `σ`, and the
per-epoch reshuffle of the `DataLoader` as the parameter `shuffle` — no claim
depends on the numeric weight trajectory, only on the loop's control flow,
error behaviour and the `is_trained` flag, which are modelled exactly. -/

/-- `nn.CrossEntropyLoss()(outputs, targets)`: mean over the batch of
`log-sum-exp(out) - out[target]` (targets assumed in range, as
`CrossEntropyLoss` requires). -/
noncomputable def crossEntropy (outputs : List (List ℝ)) (targets : List ℤ) : ℝ :=
  mean (List.zipWith
    (fun out t => Real.log ((out.map Real.exp).sum) - out.getD t.toNat 0)
    outputs targets)

/-- Consecutive batches of size `bs` drawn from the (already shuffled) sample
order, as the `DataLoader` yields them (`torch` rejects `batch_size=0`;
modelled as yielding no batches). -/
def chunks {α : Type _} (bs : Nat) (l : List α) : List (List α) :=
  match l with
  | [] => []
  | a :: t =>
    if bs = 0 then []
    else (a :: t.take (bs - 1)) :: chunks bs (t.drop (bs - 1))
termination_by l.length
decreasing_by simp [List.length_drop]; omega

/-- The inner batch loop of one epoch: train-mode forward pass, loss,
optimizer step, loss accumulation — with no branch on the loss value,
exactly as in the source. -/
noncomputable def runBatches {σ : Type _}
    (crit : List (List ℝ) → List ℤ → ℝ)
    (step : σ → Model → List (List ℝ × ℤ) → σ × Model) (g : Nat → ℝ) :
    List (List (List ℝ × ℤ)) → σ × Model × Nat × ℝ →
      Except PyErr (σ × Model × Nat × ℝ)
  | [], st => .ok st
  | b :: bs, (s, m, ctr, tl) => do
    let (out, c1) ← forwardPass m .train g (b.map Prod.fst) ctr
    let loss := crit out (b.map Prod.snd)
    let (s1, m1) := step s m b
    runBatches crit step g bs (s1, m1, c1, tl + loss)

/-- The epoch loop: each epoch re-shuffles the data (the `DataLoader`'s
per-epoch permutation, provided by `shuffle` at the epoch's index), resets the
accumulated loss, runs the batches, and reports the epoch loss only to the
logger (dropped here). -/
noncomputable def runEpochs {σ : Type _}
    (crit : List (List ℝ) → List ℤ → ℝ)
    (step : σ → Model → List (List ℝ × ℤ) → σ × Model)
    (shuffle : Nat → List (List ℝ × ℤ) → List (List ℝ × ℤ))
    (g : Nat → ℝ) (data : List (List ℝ × ℤ)) (bs : Nat) :
    Nat → Nat → σ × Model × Nat → Except PyErr (σ × Model × Nat)
  | _, 0, st => .ok st
  | e, k + 1, (s, m, ctr) => do
    let (s1, m1, c1, _epochLoss) ←
      runBatches crit step g (chunks bs (shuffle e data)) (s, m, ctr, 0)
    runEpochs crit step shuffle g data bs (e + 1) k (s1, m1, c1)

/-- `NeuroSymbolicClassifier.fit` with the loss criterion as an explicit
parameter: tensor conversion, `TensorDataset` (whose constructor asserts that
features and labels have equal length), `DataLoader(shuffle=True)`, the
epoch/batch loops, and finally `self.is_trained = True` — unconditionally: the
source contains no input-width validation and no check on the loss value. -/
noncomputable def fitWith {σ : Type _}
    (crit : List (List ℝ) → List ℤ → ℝ)
    (step : σ → Model → List (List ℝ × ℤ) → σ × Model)
    (shuffle : Nat → List (List ℝ × ℤ) → List (List ℝ × ℤ))
    (m : Model) (X : List (List ℝ)) (y : List ℤ) (g : Nat → ℝ) (ctr : Nat)
    (s0 : σ) : Except PyErr (Model × Nat) :=
  if X.length = y.length then do
    let (_, m1, c1) ←
      runEpochs crit step shuffle g (X.zip y) m.batch_size 0 m.epochs
        (s0, m, ctr)
    pure ({ m1 with is_trained := true }, c1)
  else .error .assertionError

/-- `NeuroSymbolicClassifier.fit`: `fitWith` at the source's criterion,
`nn.CrossEntropyLoss()`. -/
noncomputable def Model.fit {σ : Type _}
    (step : σ → Model → List (List ℝ × ℤ) → σ × Model)
    (shuffle : Nat → List (List ℝ × ℤ) → List (List ℝ × ℤ))
    (m : Model) (X : List (List ℝ)) (y : List ℤ) (g : Nat → ℝ) (ctr : Nat)
    (s0 : σ) : Except PyErr (Model × Nat) :=
  fitWith crossEntropy step shuffle m X y g ctr s0

/-! ### Derived eval-mode forms

In eval mode dropout is the identity and draws nothing from the generator, so
the encoder and the integration stage are pure row functions.  The following
derived forms make that explicit; the lemmas below prove them equal to the
faithful monadic definitions above, and all claim-level theorems are stated
against the faithful definitions. -/

/-- Structural `mapM` over `Except`, easier to reason about than the library
loop form. -/
def mapE {α β : Type _} (f : α → Except PyErr β) : List α → Except PyErr (List β)
  | [] => .ok []
  | a :: l => do
    let b ← f a
    let bs ← mapE f l
    pure (b :: bs)

/-- The middle layers in eval mode (dropout dropped). -/
noncomputable def midLayersEval : List Linear → List ℝ → Except PyErr (List ℝ)
  | [], a => .ok a
  | l :: ls, a => do
    let h ← l.apply a
    midLayersEval ls (relu h)

/-- The encoder on one row in eval mode (dropout dropped). -/
noncomputable def encoderEvalRow (m : Model) (x : List ℝ) :
    Except PyErr (List ℝ) := do
  let h1 ← m.firstLayer.apply x
  let a ← midLayersEval m.midLayers (relu h1)
  let hL ← m.lastLayer.apply a
  pure (relu hL)

/-- The integration stage on one row pair in eval mode (dropout dropped). -/
noncomputable def integrateEvalRow (m : Model) (nf sf : List ℝ) :
    Except PyErr (List ℝ) :=
  let combined := nf ++ sf
  match m.integration with
  | .lateFusion l1 l2 => do
    let h1 ← l1.apply combined
    l2.apply (relu h1)
  | .attentionFusion _ _ vProj outProj l1 l2 => do
    let v ← vProj.apply combined
    let attended ← outProj.apply v
    let h1 ← l1.apply attended
    l2.apply (relu h1)

/-- The eval-mode forward pass as a batch-of-logits function: pure encoder
rows, the symbolic draws (the only generator consumption in eval mode), pure
integration rows. -/
noncomputable def evalLogitsBatch (m : Model) (X : List (List ℝ))
    (g : Nat → ℝ) (ctr : Nat) : Except PyErr (List (List ℝ)) := do
  let nf ← mapE (encoderEvalRow m) X
  let sf := (symbolicRows m.reasoner g X ctr).1
  mapE (fun p => integrateEvalRow m p.1 p.2) (nf.zip sf)

/-! ### Concrete configurations used by the construction claims -/

/-- A schema-conforming configuration whose fusion method is `late_fusion`:
under the specified construction contract it should construct
successfully. -/
def cfgValid : PyConfig :=
  { input_size := some 4, hidden_layers := some [8, 4], num_classes := some 2,
    symbolic_rules := [], reasoning_engine := none,
    integration_method := some "late_fusion", epochs := none,
    batch_size := none }

/-- A configuration dictionary carrying an explicitly empty hidden-layer
list. -/
def cfgEmptyHidden : PyConfig :=
  { input_size := some 4, hidden_layers := some [], num_classes := some 2,
    symbolic_rules := [], reasoning_engine := none,
    integration_method := some "late_fusion", epochs := none,
    batch_size := none }

/-! ### Concrete model states

`Mzero` is a trained late-fusion model state in the architecture's shapes for
`input_size = 1`, `hidden_layers = [1]`: encoder `Linear(1,1)` twice, symbolic
width 32, fusion stack `Linear(33,128)` / `Linear(128,2)`, with all-zero
weights.  `Mcex` differs only in the fusion weights: the first fusion row sums
the combined vector and the output layer maps it to `(-s, s)`, so the
predicted class follows the sign of the symbolic draws. -/

def Mzero : Model :=
  { firstLayer := ⟨1, [[0]], [0]⟩
    midLayers := []
    lastLayer := ⟨1, [[0]], [0]⟩
    reasoner := ⟨[], 32⟩
    integration_method := "late_fusion"
    integration := .lateFusion
      ⟨33, List.replicate 128 (List.replicate 33 0), List.replicate 128 0⟩
      ⟨128, List.replicate 2 (List.replicate 128 0), List.replicate 2 0⟩
    is_trained := true
    epochs := 1
    batch_size := 32 }

/-- `Mzero` with the trained flag cleared (a freshly constructed state). -/
def Muntrained : Model := { Mzero with is_trained := false }

/-- The zero-epoch model for the C6 counterexample (fresh, untrained,
`epochs = 0` as `config.get('epochs')` would give for an explicit 0). -/
def Mep0 : Model := { Muntrained with epochs := 0 }

/-! ### Concrete evaluation -/

/-- A second model state in the same shapes as `Mzero`, whose first fusion
row sums the combined vector and whose output layer maps the ReLU of that sum
`u` to logits `(-u, u)`: the predicted class follows the sign of the symbolic
draws. -/
def Mcex : Model :=
  { firstLayer := ⟨1, [[0]], [0]⟩
    midLayers := []
    lastLayer := ⟨1, [[0]], [0]⟩
    reasoner := ⟨[], 32⟩
    integration_method := "late_fusion"
    integration := .lateFusion
      ⟨33, List.replicate 33 1 :: List.replicate 127 (List.replicate 33 0),
        List.replicate 128 0⟩
      ⟨128, [(-1 : ℝ) :: List.replicate 127 0, (1 : ℝ) :: List.replicate 127 0],
        [0, 0]⟩
    is_trained := true
    epochs := 1
    batch_size := 32 }

/-- A generator stream whose first 32 draws are 1 and all later draws -1. -/
noncomputable def gSplit : Nat → ℝ := fun k => if k < 32 then 1 else -1

/-! Reduction lemmas for the `Except` plumbing that the `do` blocks desugar
to. -/

theorem ebind_ok {α β : Type _} (a : α) (f : α → Except PyErr β) :
    (Except.ok a >>= f) = f a := rfl

theorem ebind_err {α β : Type _} (e : PyErr) (f : α → Except PyErr β) :
    ((Except.error e : Except PyErr α) >>= f) = .error e := rfl

theorem emap_ok {α β : Type _} (a : α) (f : α → β) :
    (Except.map f (Except.ok a : Except PyErr α)) = .ok (f a) := rfl

theorem emap_err {α β : Type _} (e : PyErr) (f : α → β) :
    (Except.map f (Except.error e : Except PyErr α)) = .error e := rfl

theorem efmap_ok {α β : Type _} (a : α) (f : α → β) :
    (f <$> (Except.ok a : Except PyErr α)) = .ok (f a) := rfl

theorem efmap_err {α β : Type _} (e : PyErr) (f : α → β) :
    (f <$> (Except.error e : Except PyErr α)) = .error e := rfl

theorem epure {α : Type _} (a : α) :
    (pure a : Except PyErr α) = .ok a := rfl

theorem dropout_eval (g : Nat → ℝ) (ctr : Nat) (x : List ℝ) :
    dropout .eval g ctr x = (x, ctr) := rfl

theorem midLayersForward_eval (g : Nat → ℝ) (ls : List Linear) (a : List ℝ)
    (c : Nat) :
    midLayersForward .eval g ls (a, c) =
      Except.map (fun r => (r, c)) (midLayersEval ls a) := by
  induction ls generalizing a with
  | nil => rfl
  | cons l ls ih =>
    simp only [midLayersForward, midLayersEval]
    cases h : l.apply a with
    | error e => rfl
    | ok hv =>
      simp only [ebind_ok, dropout_eval]
      exact ih (relu hv)

theorem encoderForward_eval (m : Model) (g : Nat → ℝ) (x : List ℝ)
    (ctr : Nat) :
    encoderForward m .eval g x ctr =
      (encoderEvalRow m x).map (fun h => (h, ctr)) := by
  simp only [encoderForward, encoderEvalRow, dropout_eval]
  cases h1 : m.firstLayer.apply x with
  | error e => rfl
  | ok v1 =>
    simp only [ebind_ok, midLayersForward_eval]
    cases h2 : midLayersEval m.midLayers (relu v1) with
    | error e => rfl
    | ok v2 =>
      simp only [emap_ok, ebind_ok]
      cases h3 : m.lastLayer.apply v2 with
      | error e => rfl
      | ok v3 => rfl

theorem encodeRows_eval (m : Model) (g : Nat → ℝ) (X : List (List ℝ))
    (ctr : Nat) :
    encodeRows m .eval g X ctr =
      Except.map (fun hs => (hs, ctr)) (mapE (encoderEvalRow m) X) := by
  induction X generalizing ctr with
  | nil => rfl
  | cons x xs ih =>
    simp only [encodeRows, mapE, encoderForward_eval]
    cases h1 : encoderEvalRow m x with
    | error e => rfl
    | ok v1 =>
      simp only [emap_ok, ebind_ok, ih]
      cases h2 : mapE (encoderEvalRow m) xs with
      | error e => rfl
      | ok vs => rfl

theorem integrateRow_eval (m : Model) (g : Nat → ℝ) (nf sf : List ℝ)
    (ctr : Nat) :
    integrateRow m .eval g nf sf ctr =
      Except.map (fun o => (o, ctr)) (integrateEvalRow m nf sf) := by
  cases hI : m.integration with
  | lateFusion l1 l2 =>
    simp only [integrateRow, integrateEvalRow, hI]
    cases h1 : l1.apply (nf ++ sf) with
    | error e => rfl
    | ok v1 =>
      simp only [ebind_ok, dropout_eval]
      cases h2 : l2.apply (relu v1) with
      | error e => rfl
      | ok v2 => rfl
  | attentionFusion qP kP vP oP l1 l2 =>
    simp only [integrateRow, integrateEvalRow, hI]
    cases h1 : vP.apply (nf ++ sf) with
    | error e => rfl
    | ok v1 =>
      simp only [ebind_ok]
      cases h2 : oP.apply v1 with
      | error e => rfl
      | ok v2 =>
        simp only [ebind_ok]
        cases h3 : l1.apply v2 with
        | error e => rfl
        | ok v3 =>
          simp only [ebind_ok, dropout_eval]
          cases h4 : l2.apply (relu v3) with
          | error e => rfl
          | ok v4 => rfl

theorem integrateRows_eval (m : Model) (g : Nat → ℝ)
    (ps : List (List ℝ × List ℝ)) (ctr : Nat) :
    integrateRows m .eval g ps ctr =
      Except.map (fun os => (os, ctr))
        (mapE (fun p => integrateEvalRow m p.1 p.2) ps) := by
  induction ps generalizing ctr with
  | nil => rfl
  | cons p ps ih =>
    simp only [integrateRows, mapE, integrateRow_eval]
    cases h1 : integrateEvalRow m p.1 p.2 with
    | error e => rfl
    | ok v1 =>
      simp only [emap_ok, ebind_ok, ih]
      cases h2 : mapE (fun p => integrateEvalRow m p.1 p.2) ps with
      | error e => rfl
      | ok vs => rfl

theorem symbolicRow_classify (r : SimpleReasoner) (x : List ℝ) (g : Nat → ℝ)
    (ctr : Nat) :
    symbolicRow r x g ctr = (randn g ctr r.output_size, ctr + r.output_size) := by
  simp [symbolicRow, SimpleReasoner.reason]

theorem symbolicRows_ctr (r : SimpleReasoner) (g : Nat → ℝ)
    (X : List (List ℝ)) (ctr : Nat) :
    (symbolicRows r g X ctr).2 = ctr + r.output_size * X.length := by
  induction X generalizing ctr with
  | nil => simp [symbolicRows]
  | cons x xs ih =>
    simp only [symbolicRows, symbolicRow_classify, ih, List.length_cons,
      Nat.mul_succ]
    omega

theorem symbolicRows_length (r : SimpleReasoner) (g : Nat → ℝ)
    (X : List (List ℝ)) (ctr : Nat) :
    (symbolicRows r g X ctr).1.length = X.length := by
  induction X generalizing ctr with
  | nil => rfl
  | cons x xs ih => simp [symbolicRows, ih]

theorem randn_window (g : Nat → ℝ) (c c' n : Nat)
    (h : ∀ j, g (c + j) = g (c' + j)) : randn g c n = randn g c' n := by
  simp only [randn]
  exact List.map_congr_left (fun j _ => h j)

theorem symbolicRows_window (r : SimpleReasoner) (g : Nat → ℝ)
    (X : List (List ℝ)) (c c' : Nat) (h : ∀ j, g (c + j) = g (c' + j)) :
    (symbolicRows r g X c).1 = (symbolicRows r g X c').1 := by
  induction X generalizing c c' with
  | nil => rfl
  | cons x xs ih =>
    simp only [symbolicRows, symbolicRow_classify]
    refine congrArg₂ List.cons (randn_window g c c' r.output_size h) ?_
    exact ih (c + r.output_size) (c' + r.output_size)
      (fun j => by simpa [Nat.add_assoc] using h (r.output_size + j))

theorem forwardPass_eval (m : Model) (g : Nat → ℝ) (X : List (List ℝ))
    (ctr : Nat) :
    forwardPass m .eval g X ctr =
      Except.map (fun out => (out, ctr + m.reasoner.output_size * X.length))
        (evalLogitsBatch m X g ctr) := by
  simp only [forwardPass, evalLogitsBatch, encodeRows_eval]
  cases h1 : mapE (encoderEvalRow m) X with
  | error e => rfl
  | ok nf =>
    simp only [emap_ok, ebind_ok, integrateRows_eval, symbolicRows_ctr]

theorem mapE_length {α β : Type _} (f : α → Except PyErr β) (l : List α)
    (ys : List β) (h : mapE f l = .ok ys) : ys.length = l.length := by
  induction l generalizing ys with
  | nil =>
    simp only [mapE] at h
    cases h
    rfl
  | cons a t ih =>
    simp only [mapE] at h
    cases h1 : f a with
    | error e => rw [h1] at h; exact absurd h (by simp [ebind_err])
    | ok b =>
      rw [h1, ebind_ok] at h
      cases h2 : mapE f t with
      | error e => rw [h2] at h; exact absurd h (by simp [ebind_err])
      | ok bs =>
        rw [h2, ebind_ok, epure] at h
        cases h
        simp [ih bs h2]

theorem evalLogitsBatch_length (m : Model) (X : List (List ℝ)) (g : Nat → ℝ)
    (ctr : Nat) (out : List (List ℝ))
    (h : evalLogitsBatch m X g ctr = .ok out) : out.length = X.length := by
  simp only [evalLogitsBatch] at h
  cases h1 : mapE (encoderEvalRow m) X with
  | error e => rw [h1] at h; exact absurd h (by simp [ebind_err])
  | ok nf =>
    rw [h1, ebind_ok] at h
    have hlen := mapE_length _ _ _ h
    have hnf := mapE_length _ _ _ h1
    have hsf := symbolicRows_length m.reasoner g X ctr
    rw [List.length_zip, hnf, hsf, Nat.min_self] at hlen
    exact hlen

theorem evalLogitsBatch_window (m : Model) (X : List (List ℝ)) (g : Nat → ℝ)
    (c c' : Nat) (h : ∀ j, g (c + j) = g (c' + j)) :
    evalLogitsBatch m X g c = evalLogitsBatch m X g c' := by
  simp only [evalLogitsBatch]
  rw [symbolicRows_window m.reasoner g X c c' h]

/-! ### Argmax commutes with softmax -/

theorem argmaxGo_map (f : ℝ → ℝ) (hf : StrictMono f) (xs : List ℝ) :
    ∀ (i best : Nat) (bv : ℝ),
      argmaxGo (xs.map f) i best (f bv) = argmaxGo xs i best bv := by
  induction xs with
  | nil => intro i best bv; rfl
  | cons x xs ih =>
    intro i best bv
    simp only [List.map_cons, argmaxGo, hf.lt_iff_lt]
    split_ifs with h
    · exact ih (i + 1) i x
    · exact ih (i + 1) best bv

theorem argmaxIdx_map (f : ℝ → ℝ) (hf : StrictMono f) (v : List ℝ) :
    argmaxIdx (v.map f) = argmaxIdx v := by
  cases v with
  | nil => rfl
  | cons x xs =>
    simp only [List.map_cons, argmaxIdx]
    exact argmaxGo_map f hf xs 1 0 x

theorem sumExp_pos (v : List ℝ) (hv : v ≠ []) : 0 < (v.map Real.exp).sum := by
  apply List.sum_pos
  · intro a ha
    rcases List.mem_map.mp ha with ⟨x, _, rfl⟩
    exact Real.exp_pos x
  · simpa using hv

theorem expDiv_strictMono (S : ℝ) (hS : 0 < S) :
    StrictMono (fun x => Real.exp x / S) := by
  intro a b hab
  exact div_lt_div_of_pos_right (Real.exp_lt_exp.mpr hab) hS

theorem argmax_softmax (v : List ℝ) : argmaxIdx (softmax v) = argmaxIdx v := by
  cases hv : v with
  | nil => rfl
  | cons x xs =>
    have hS : 0 < ((x :: xs).map Real.exp).sum :=
      sumExp_pos (x :: xs) (by simp)
    exact argmaxIdx_map _ (expDiv_strictMono _ hS) (x :: xs)

theorem sum_map_div (l : List ℝ) (S : ℝ) :
    (l.map (fun x => x / S)).sum = l.sum / S := by
  induction l with
  | nil => simp
  | cons a t ih => simp [ih, add_div]

theorem softmax_sum (v : List ℝ) (hv : v ≠ []) : (softmax v).sum = 1 := by
  have hS := sumExp_pos v hv
  have hmm : (v.map fun x => Real.exp x / (v.map Real.exp).sum) =
      (v.map Real.exp).map (fun y => y / (v.map Real.exp).sum) := by
    rw [List.map_map]; rfl
  rw [softmax, hmm, sum_map_div, div_self (ne_of_gt hS)]

/-! ### Means of indicator lists -/

theorem indicator_sum_bounds (l : List ℝ) (h : ∀ x ∈ l, x = 0 ∨ x = 1) :
    0 ≤ l.sum ∧ l.sum ≤ l.length := by
  induction l with
  | nil => simp
  | cons a t ih =>
    have ha := h a (by simp)
    have ht := ih (fun x hx => h x (by simp [hx]))
    have ha0 : 0 ≤ a := by rcases ha with rfl | rfl <;> norm_num
    have ha1 : a ≤ 1 := by rcases ha with rfl | rfl <;> norm_num
    constructor
    · simpa using add_nonneg ha0 ht.1
    · simp only [List.sum_cons, List.length_cons]
      push_cast
      have := add_le_add ha1 ht.2
      linarith

theorem mean_indicator_bounds (l : List ℝ) (h : ∀ x ∈ l, x = 0 ∨ x = 1)
    (hne : l ≠ []) : 0 ≤ mean l ∧ mean l ≤ 1 := by
  have hb := indicator_sum_bounds l h
  have hlen : (0 : ℝ) < l.length := by
    exact_mod_cast List.length_pos.mpr hne
  constructor
  · exact div_nonneg hb.1 (le_of_lt hlen)
  · rw [mean, div_le_one hlen]; exact hb.2

theorem mem_zipWith_indicator {α : Type _} [DecidableEq α] (p q : List α)
    (x : ℝ)
    (hx : x ∈ List.zipWith (fun a b => if a = b then (1 : ℝ) else 0) p q) :
    x = 0 ∨ x = 1 := by
  induction p generalizing q with
  | nil => simp at hx
  | cons a t ih =>
    cases q with
    | nil => simp at hx
    | cons b s =>
      simp only [List.zipWith_cons_cons, List.mem_cons] at hx
      rcases hx with rfl | hx
      · split_ifs <;> simp
      · exact ih s hx

theorem zipWith_indicator_self {α : Type _} [DecidableEq α] (v : List α) :
    List.zipWith (fun a b => if a = b then (1 : ℝ) else 0) v v =
      List.replicate v.length 1 := by
  induction v with
  | nil => rfl
  | cons a t ih => simp [ih, List.replicate_succ]

theorem mean_replicate_one (n : Nat) (hn : n ≠ 0) :
    mean (List.replicate n (1 : ℝ)) = 1 := by
  simp only [mean, List.sum_replicate, List.length_replicate, nsmul_eq_mul,
    mul_one]
  exact div_self (by exact_mod_cast hn)

/-- Claim C1: the specified construction contract says `construct` succeeds on
every configuration whose fusion method is `late_fusion`; on the code,
construction of the schema-conforming `cfgValid` instead raises `TypeError`
at the `SimpleReasoner(rules=..., engine=...)` call, before the fusion-method
validation in `_build_integration_layer` can run, so the claimed equivalence
fails in the success direction for every configuration. -/
theorem c1_valid_config_construction_raises_type_error :
    construct cfgValid = .error .typeError := rfl

/-- Counterexample to claim C2 as stated: on the configuration dictionary
with an explicitly empty `hidden_layers` list, construction raises
`IndexError` (from `self.hidden_layers[0]` in `_build_neural_network`), not
`TypeError`, so "for every configuration dictionary ... raises a TypeError"
is false — though construction still fails before fusion validation. -/
theorem c2_empty_hidden_layers_raises_index_error_not_type_error :
    construct cfgEmptyHidden = .error .indexError ∧
      construct cfgEmptyHidden ≠ .error .typeError := by
  constructor
  · rfl
  · intro h
    have : PyErr.indexError = PyErr.typeError := by
      have h0 : construct cfgEmptyHidden = .error .indexError := rfl
      rw [h0] at h
      exact (Except.error.injEq _ _).mp h
    exact absurd this (by simp)

/-- Claim C2 (amended): for every configuration dictionary, construction
fails before any fusion-method validation — so no model instance is ever
constructed through this code path — and whenever the neural-network build
itself does not raise (input size present, hidden-layer list nonempty after
defaulting), the failure is the `TypeError` from the
`SimpleReasoner(rules=..., engine=...)` call. -/
theorem c2_construction_always_fails_before_fusion_validation (c : PyConfig) :
    construct c ≠ .ok () ∧
      (c.input_size ≠ none → hiddenLayersOf c ≠ [] →
        construct c = .error .typeError) := by
  constructor
  · intro h
    rcases h1 : hiddenLayersOf c with _ | ⟨a, t⟩ <;>
      rcases h2 : c.input_size with _ | i <;>
        simp [construct, buildNeuralNetwork, buildSymbolicReasoner, h1, h2,
          ebind_err, ebind_ok] at h
  · intro hin hhid
    rcases h1 : hiddenLayersOf c with _ | ⟨a, t⟩
    · exact absurd h1 hhid
    · rcases h2 : c.input_size with _ | i
      · exact absurd h2 hin
      · simp [construct, buildNeuralNetwork, buildSymbolicReasoner, h1, h2,
          ebind_ok, ebind_err]

/-- Witness for the amended claim C2 at the concrete `cfgValid`. -/
theorem c2_witness :
    construct cfgValid ≠ .ok () ∧ construct cfgValid = .error .typeError :=
  ⟨(c2_construction_always_fails_before_fusion_validation cfgValid).1,
   (c2_construction_always_fails_before_fusion_validation cfgValid).2
     (by simp [cfgValid]) (by simp [cfgValid, hiddenLayersOf])⟩

/-- Claim C7: on any model state whose `trained` flag is false, `predict`,
`explain` and `evaluate` all raise the not-trained `ValueError` (the spec's
`NotTrainedError`) and return nothing else; `evaluate` fails through the
`predict` call it makes first, before computing any metric. -/
theorem c7_untrained_reads_raise_not_trained_error (m : Model)
    (X : List (List ℝ)) (y : List ℤ) (npg : Nat → Nat → ℝ) (g : Nat → ℝ)
    (ctr : Nat) (h : m.is_trained = false) :
    m.predict X g ctr = .error (.valueError notTrainedPredictMsg) ∧
    m.explain X g ctr = .error (.valueError notTrainedExplainMsg) ∧
    m.evaluate X y npg g ctr = .error (.valueError notTrainedPredictMsg) := by
  refine ⟨?_, ?_, ?_⟩
  · simp [Model.predict, h]
  · simp [Model.explain, h]
  · simp [Model.evaluate, Model.predict, h, ebind_err]

/-- Witness for claim C7 at the concrete untrained model state. -/
theorem c7_witness :
    Muntrained.is_trained = false ∧
    Muntrained.predict [[0]] (fun _ => 0) 0 =
      .error (.valueError notTrainedPredictMsg) ∧
    Muntrained.explain [[0]] (fun _ => 0) 0 =
      .error (.valueError notTrainedExplainMsg) ∧
    Muntrained.evaluate [[0]] [0] (fun _ _ => 0) (fun _ => 0) 0 =
      .error (.valueError notTrainedPredictMsg) := by
  have h := c7_untrained_reads_raise_not_trained_error Muntrained [[0]] [0]
    (fun _ _ => 0) (fun _ => 0) 0 rfl
  exact ⟨rfl, h.1, h.2.1, h.2.2⟩

/-- Claim C10: the vector the forward pass obtains from the reasoner —
`result.get("features", zeros(output_size))` — always has the configured
symbolic output size, for every fact list and query; the per-row symbolic
loop value has that size as well; and a query that is neither `"classify"`
nor `"explain_classification"` returns the defined neutral result (no
`features` key, no rules), so the forward-pass substitution is exactly the
zero vector of the configured size.  `reason` is total: no query fails. -/
theorem c10_reasoner_fixed_output_size_and_neutral_queries
    (r : SimpleReasoner) (facts : List (List ℝ)) (q : String) (g : Nat → ℝ)
    (ctr : Nat) (x : List ℝ) :
    (((r.reason facts q g ctr).1.features.getD
        (List.replicate r.output_size 0)).length = r.output_size) ∧
    ((symbolicRow r x g ctr).1.length = r.output_size) ∧
    (q ≠ "classify" → q ≠ "explain_classification" →
      (r.reason facts q g ctr).1.features = none ∧
      (r.reason facts q g ctr).1.rules_applied = [] ∧
      (r.reason facts q g ctr).1.features.getD (List.replicate r.output_size 0)
        = List.replicate r.output_size 0) := by
  refine ⟨?_, ?_, ?_⟩
  · by_cases hq : q = "classify"
    · simp [SimpleReasoner.reason, hq, randn]
    · by_cases hq2 : q = "explain_classification" <;>
        simp [SimpleReasoner.reason, hq, hq2]
  · simp [symbolicRow_classify, randn]
  · intro h1 h2
    simp [SimpleReasoner.reason, h1, h2]

/-- Witness for claim C10 at a concrete reasoner and an unknown query. -/
theorem c10_witness :
    ((SimpleReasoner.reason ⟨[], 32⟩ [] "frobnicate" (fun _ => 0) 0).1.features.getD
        (List.replicate 32 0)).length = 32 ∧
    (symbolicRow ⟨[], 32⟩ [] (fun _ => 0) 0).1.length = 32 ∧
    (SimpleReasoner.reason ⟨[], 32⟩ [] "frobnicate" (fun _ => 0) 0).1.features
        = none := by
  have h := c10_reasoner_fixed_output_size_and_neutral_queries ⟨[], 32⟩ []
    "frobnicate" (fun _ => 0) 0 []
  exact ⟨h.1, h.2.1, (h.2.2 (by decide) (by decide)).1⟩

/-- Claim C3 (amended): `predict` and the per-row argmax of `predict_proba`
agree whenever the two calls see the same generator state — equivalently,
whenever the symbolic reasoner's draws coincide across the two calls (for
instance under a deterministic reasoner backend).  As the two source methods
are separate calls that each draw fresh `torch.randn` vectors inside their
forward passes, the unconditional claim fails; see the counterexample. -/
theorem c3_predict_eq_argmax_proba_same_draws (m : Model) (X : List (List ℝ))
    (g : Nat → ℝ) (ctr : Nat) (labels : List Nat) (P : List (List ℝ))
    (c c' : Nat)
    (hp : m.predict X g ctr = .ok (labels, c))
    (hq : m.predictProba X g ctr = .ok (P, c')) :
    labels = P.map argmaxIdx := by
  cases ht : m.is_trained with
  | false => simp [Model.predict, ht] at hp
  | true =>
    simp only [Model.predict, Model.predictProba, ht, if_true,
      forwardPass_eval] at hp hq
    cases h1 : evalLogitsBatch m X g ctr with
    | error e =>
      rw [h1] at hp
      simp [emap_err, ebind_err] at hp
    | ok out =>
      rw [h1] at hp hq
      simp only [emap_ok, ebind_ok, epure, Except.ok.injEq, Prod.mk.injEq]
        at hp hq
      rw [← hp.1, ← hq.1, List.map_map]
      exact (List.map_congr_left (fun v _ => (argmax_softmax v).symm))

/-- Claim C8: every nonempty row of a successful `predict_proba` result sums
to exactly 1 in real arithmetic, hence certainly to within the specified
tolerance of 1e-6 (rows are nonempty whenever the classifier has at least one
class). -/
theorem c8_predict_proba_rows_sum_to_one (m : Model) (X : List (List ℝ))
    (g : Nat → ℝ) (ctr : Nat) (P : List (List ℝ)) (c : Nat)
    (h : m.predictProba X g ctr = .ok (P, c)) (row : List ℝ) (hr : row ∈ P)
    (hne : row ≠ []) :
    row.sum = 1 ∧ |row.sum - 1| ≤ 1 / 1000000 := by
  cases ht : m.is_trained with
  | false => simp [Model.predictProba, ht] at h
  | true =>
    simp only [Model.predictProba, ht, if_true, forwardPass_eval] at h
    cases h1 : evalLogitsBatch m X g ctr with
    | error e =>
      rw [h1] at h
      simp [emap_err, ebind_err] at h
    | ok out =>
      rw [h1] at h
      simp only [emap_ok, ebind_ok, epure, Except.ok.injEq, Prod.mk.injEq]
        at h
      rw [← h.1] at hr
      rcases List.mem_map.mp hr with ⟨v, _, rfl⟩
      have hv : v ≠ [] := by
        intro hv0
        rw [hv0] at hne
        exact hne rfl
      have hsum := softmax_sum v hv
      exact ⟨hsum, by rw [hsum]; norm_num⟩

/-- Loss-projection lemma: the batch loop's optimizer state, model and
generator counter (everything except the logged loss accumulator) do not
depend on the loss criterion. -/
theorem runBatches_crit_proj {σ : Type _}
    (crit1 crit2 : List (List ℝ) → List ℤ → ℝ)
    (step : σ → Model → List (List ℝ × ℤ) → σ × Model) (g : Nat → ℝ)
    (bs : List (List (List ℝ × ℤ))) :
    ∀ (s : σ) (m : Model) (c : Nat) (tl tl' : ℝ),
      Except.map (fun r => (r.1, r.2.1, r.2.2.1))
          (runBatches crit1 step g bs (s, m, c, tl)) =
        Except.map (fun r => (r.1, r.2.1, r.2.2.1))
          (runBatches crit2 step g bs (s, m, c, tl')) := by
  induction bs with
  | nil => intro s m c tl tl'; rfl
  | cons b bs ih =>
    intro s m c tl tl'
    simp only [runBatches]
    cases hf : forwardPass m .train g (b.map Prod.fst) c with
    | error e => rfl
    | ok oc =>
      simp only [ebind_ok]
      exact ih (step s m b).1 (step s m b).2 oc.2 _ _

/-- The epoch loop drops the loss accumulator, so its result does not depend
on the loss criterion at all. -/
theorem runEpochs_crit {σ : Type _}
    (crit1 crit2 : List (List ℝ) → List ℤ → ℝ)
    (step : σ → Model → List (List ℝ × ℤ) → σ × Model)
    (shuffle : Nat → List (List ℝ × ℤ) → List (List ℝ × ℤ))
    (g : Nat → ℝ) (data : List (List ℝ × ℤ)) (bsz : Nat) (k : Nat) :
    ∀ (e : Nat) (st : σ × Model × Nat),
      runEpochs crit1 step shuffle g data bsz e k st =
        runEpochs crit2 step shuffle g data bsz e k st := by
  induction k with
  | zero => intro e st; rfl
  | succ k ih =>
    intro e st
    obtain ⟨s, m, c⟩ := st
    simp only [runEpochs]
    have hmap := runBatches_crit_proj crit1 crit2 step g
      (chunks bsz (shuffle e data)) s m c 0 0
    cases h1 : runBatches crit1 step g (chunks bsz (shuffle e data))
        (s, m, c, 0) with
    | error e1 =>
      cases h2 : runBatches crit2 step g (chunks bsz (shuffle e data))
          (s, m, c, 0) with
      | error e2 =>
        rw [h1, h2] at hmap
        simp only [emap_err, Except.error.injEq] at hmap
        rw [hmap]
        simp [ebind_err]
      | ok r2 =>
        rw [h1, h2] at hmap
        simp [emap_err, emap_ok] at hmap
    | ok r1 =>
      cases h2 : runBatches crit2 step g (chunks bsz (shuffle e data))
          (s, m, c, 0) with
      | error e2 =>
        rw [h1, h2] at hmap
        simp [emap_err, emap_ok] at hmap
      | ok r2 =>
        rw [h1, h2] at hmap
        simp only [emap_ok, Except.ok.injEq] at hmap
        obtain ⟨s1, m1, c1, t1⟩ := r1
        obtain ⟨s2, m2, c2, t2⟩ := r2
        simp only [Prod.mk.injEq] at hmap
        obtain ⟨rfl, rfl, rfl⟩ := hmap
        simp only [ebind_ok]
        exact ih (e + 1) (s1, m1, c1)

/-- Claim C5 (supporting theorem): the result of `fit` — error or final model
state and generator counter — is identical for any two loss criteria.  The
training loop never branches on the loss value: a non-finite loss neither
aborts training, nor moves the model to a failed state (none exists in the
code), nor stops `is_trained` from being set on completion. -/
theorem c5_fit_result_independent_of_loss_values {σ : Type _}
    (crit1 crit2 : List (List ℝ) → List ℤ → ℝ)
    (step : σ → Model → List (List ℝ × ℤ) → σ × Model)
    (shuffle : Nat → List (List ℝ × ℤ) → List (List ℝ × ℤ))
    (m : Model) (X : List (List ℝ)) (y : List ℤ) (g : Nat → ℝ) (ctr : Nat)
    (s0 : σ) :
    fitWith crit1 step shuffle m X y g ctr s0 =
      fitWith crit2 step shuffle m X y g ctr s0 := by
  simp only [fitWith]
  split
  · rw [runEpochs_crit crit1 crit2 step shuffle g (X.zip y) m.batch_size
      m.epochs 0 (s0, m, ctr)]
  · rfl

/-! ### Error propagation through the training loop (claim C6) -/

theorem Linear.apply_err (l : Linear) (x : List ℝ) (h : x.length ≠ l.inF) :
    l.apply x = .error .runtimeError := by
  simp [Linear.apply, h]

theorem encoderForward_err (m : Model) (mode : Mode) (g : Nat → ℝ)
    (x : List ℝ) (c : Nat) (h : m.firstLayer.apply x = .error .runtimeError) :
    encoderForward m mode g x c = .error .runtimeError := by
  simp [encoderForward, h, ebind_err]

theorem encodeRows_err (m : Model) (mode : Mode) (g : Nat → ℝ) (x : List ℝ)
    (xs : List (List ℝ)) (c : Nat)
    (h : encoderForward m mode g x c = .error .runtimeError) :
    encodeRows m mode g (x :: xs) c = .error .runtimeError := by
  simp [encodeRows, h, ebind_err]

theorem forwardPass_err (m : Model) (mode : Mode) (g : Nat → ℝ)
    (X : List (List ℝ)) (c : Nat)
    (h : encodeRows m mode g X c = .error .runtimeError) :
    forwardPass m mode g X c = .error .runtimeError := by
  simp [forwardPass, h, ebind_err]

theorem runBatches_err {σ : Type _} (crit : List (List ℝ) → List ℤ → ℝ)
    (step : σ → Model → List (List ℝ × ℤ) → σ × Model) (g : Nat → ℝ)
    (b : List (List ℝ × ℤ)) (bs : List (List (List ℝ × ℤ))) (s : σ)
    (m : Model) (c : Nat) (tl : ℝ)
    (h : forwardPass m .train g (b.map Prod.fst) c = .error .runtimeError) :
    runBatches crit step g (b :: bs) (s, m, c, tl) =
      .error .runtimeError := by
  simp [runBatches, h, ebind_err]

theorem chunks_cons {α : Type _} (bs : Nat) (a : α) (t : List α)
    (h : bs ≠ 0) :
    chunks bs (a :: t) =
      (a :: t.take (bs - 1)) :: chunks bs (t.drop (bs - 1)) := by
  rw [chunks]
  simp [h]

/-- Claim C6 (amended): `fit` performs no explicit input-width validation; a
width mismatch surfaces as the shape `RuntimeError` of the first forward pass
— inside the training loop but before any optimizer step — whenever at least
one batch is actually processed (at least one epoch, nonempty data, positive
batch size).  With zero configured epochs the mismatch raises nothing at all
(see the counterexample). -/
theorem c6_mismatch_raises_runtime_error_in_first_forward {σ : Type _}
    (step : σ → Model → List (List ℝ × ℤ) → σ × Model)
    (shuffle : Nat → List (List ℝ × ℤ) → List (List ℝ × ℤ))
    (m : Model) (X : List (List ℝ)) (y : List ℤ) (g : Nat → ℝ) (ctr : Nat)
    (s0 : σ) (w : Nat)
    (hsh : ∀ e l, (shuffle e l).Perm l)
    (hw : ∀ row ∈ X, row.length = w)
    (hmm : w ≠ m.firstLayer.inF)
    (hep : 0 < m.epochs) (hbs : 0 < m.batch_size)
    (hX : X ≠ []) (hlen : X.length = y.length) :
    Model.fit step shuffle m X y g ctr s0 = .error .runtimeError := by
  obtain ⟨k, hk⟩ : ∃ k, m.epochs = k + 1 := ⟨m.epochs - 1, by omega⟩
  have hXpos : 0 < X.length := List.length_pos.mpr hX
  have hslen : (shuffle 0 (X.zip y)).length = X.length := by
    rw [(hsh 0 (X.zip y)).length_eq, List.length_zip, hlen, Nat.min_self]
  obtain ⟨a, t, hat⟩ : ∃ a t, shuffle 0 (X.zip y) = a :: t := by
    cases hs : shuffle 0 (X.zip y) with
    | nil => rw [hs] at hslen; simp at hslen; omega
    | cons a t => exact ⟨a, t, rfl⟩
  have hmema : a ∈ X.zip y :=
    (hsh 0 (X.zip y)).subset (hat ▸ List.mem_cons_self a t)
  have ha1 : a.1 ∈ X := by
    obtain ⟨a1, a2⟩ := a
    exact (List.of_mem_zip hmema).1
  have hfl : m.firstLayer.apply a.1 = .error .runtimeError :=
    Linear.apply_err _ _ (by rw [hw a.1 ha1]; exact hmm)
  have hfp : forwardPass m .train g
      ((a :: t.take (m.batch_size - 1)).map Prod.fst) ctr =
      .error .runtimeError := by
    rw [List.map_cons]
    exact forwardPass_err _ _ _ _ _
      (encodeRows_err _ _ _ _ _ _ (encoderForward_err _ _ _ _ _ hfl))
  simp only [Model.fit, fitWith, if_pos hlen, hk, runEpochs, hat,
    chunks_cons m.batch_size a t (by omega),
    runBatches_err crossEntropy step g _ _ s0 m ctr 0 hfp, ebind_err]

/-- Counterexample to claim C6 as stated: with zero configured epochs, `fit`
on a batch whose feature width 2 differs from the model's input width 1
raises nothing — no `DimensionMismatchError`, no error at all — and happily
marks the model trained. -/
theorem c6_zero_epochs_mismatch_trains_without_error :
    Model.fit (fun (s : Unit) (m : Model) _ => (s, m)) (fun _ l => l) Mep0
        [[0, 0]] [0] (fun _ => 0) 0 () =
      .ok ({ Mep0 with is_trained := true }, 0) ∧
    (2 : Nat) ≠ Mep0.firstLayer.inF := by
  exact ⟨rfl, by decide⟩

/-- Witness for the amended claim C6: on a one-epoch model, the same
mismatched batch makes `fit` fail with the shape `RuntimeError`. -/
theorem c6_witness :
    Model.fit (fun (s : Unit) (m : Model) _ => (s, m)) (fun _ l => l) Muntrained
        [[0, 0]] [0] (fun _ => 0) 0 () = .error .runtimeError := by
  refine c6_mismatch_raises_runtime_error_in_first_forward
    (fun (s : Unit) (m : Model) _ => (s, m)) (fun _ l => l) Muntrained [[0, 0]] [0]
    (fun _ => 0) 0 () 2 (fun _ l => List.Perm.refl l) ?_ (by decide)
    (by decide) (by decide) (by simp) rfl
  intro row hr
  simp only [List.mem_singleton] at hr
  rw [hr]
  rfl

/-! ### Robustness score (claim C9) -/

theorem zip_add_zero_row (row : List ℝ) (f : Nat → ℝ) (hf : ∀ j, f j = 0) :
    List.zipWith (fun a b => a + b) row (row.mapIdx (fun j _ => f j)) =
      row := by
  induction row generalizing f with
  | nil => rfl
  | cons a t ih =>
    simp only [List.mapIdx_cons, List.zipWith_cons_cons, hf 0, add_zero]
    rw [ih (fun j => f (j + 1)) (fun j => hf (j + 1))]

theorem perturb_zero (X : List (List ℝ)) (npg : Nat → Nat → ℝ)
    (h : ∀ i j, npg i j = 0) :
    List.zipWith (List.zipWith (fun a b => a + b)) X (gaussNoise npg X) =
      X := by
  induction X generalizing npg with
  | nil => rfl
  | cons r t ih =>
    simp only [gaussNoise, List.mapIdx_cons, List.zipWith_cons_cons]
    rw [List.cons.injEq]
    exact ⟨zip_add_zero_row r (fun j => 0.01 * npg 0 j)
        (fun j => by simp [h 0 j]),
      ih (fun i j => npg (i + 1) j) (fun i j => h (i + 1) j)⟩

/-- Eliminate a successful `predict` into its eval-mode pieces. -/
theorem predict_ok_elim (m : Model) (X : List (List ℝ)) (g : Nat → ℝ)
    (ctr : Nat) (labels : List Nat) (c : Nat)
    (h : m.predict X g ctr = .ok (labels, c)) :
    m.is_trained = true ∧ ∃ out, evalLogitsBatch m X g ctr = .ok out ∧
      labels = out.map argmaxIdx ∧
      c = ctr + m.reasoner.output_size * X.length := by
  cases ht : m.is_trained with
  | false => simp [Model.predict, ht] at h
  | true =>
    simp only [Model.predict, ht, if_true, forwardPass_eval] at h
    cases h1 : evalLogitsBatch m X g ctr with
    | error e =>
      rw [h1] at h
      simp [emap_err, ebind_err] at h
    | ok out =>
      rw [h1] at h
      simp only [emap_ok, ebind_ok, epure, Except.ok.injEq,
        Prod.mk.injEq] at h
      exact ⟨rfl, out, rfl, h.1.symm, h.2.symm⟩

/-- Claim C9 (amended): the robustness score of a successful evaluation on a
nonempty batch always lies in [0, 1]; and it equals 1.0 under zero
perturbation provided the reasoner's random draws repeat identically across
the two prediction passes (e.g. under a deterministic reasoner backend).
Without that proviso the zero-perturbation part of the claim fails on the
code — the two `predict` calls consume fresh `torch.randn` draws — as the
counterexample shows. -/
theorem c9_robustness_bounds_and_zero_noise (m : Model) (X : List (List ℝ))
    (y : List ℤ) (npg : Nat → Nat → ℝ) (g : Nat → ℝ) (ctr : Nat) (r : ℝ)
    (c : Nat)
    (hrun : calculateRobustnessScore m X y npg g ctr = .ok (r, c))
    (hX : X ≠ []) :
    (0 ≤ r ∧ r ≤ 1) ∧
    ((∀ i j, npg i j = 0) →
      (∀ j, g (ctr + j) = g (ctr + m.reasoner.output_size * X.length + j)) →
      r = 1) := by
  simp only [calculateRobustnessScore] at hrun
  cases h1 : m.predict X g ctr with
  | error e =>
    rw [h1] at hrun
    simp [ebind_err] at hrun
  | ok oc1 =>
    obtain ⟨orig, c1⟩ := oc1
    rw [h1, ebind_ok] at hrun
    cases h2 : m.predict
        (List.zipWith (List.zipWith fun a b => a + b) X (gaussNoise npg X))
        g c1 with
    | error e =>
      rw [h2] at hrun
      simp [ebind_err] at hrun
    | ok oc2 =>
      obtain ⟨pert, c2⟩ := oc2
      rw [h2, ebind_ok, epure] at hrun
      simp only [Except.ok.injEq, Prod.mk.injEq] at hrun
      obtain ⟨hr, -⟩ := hrun
      obtain ⟨-, out1, he1, horig, hc1⟩ := predict_ok_elim _ _ _ _ _ _ h1
      have hlen1 : orig.length = X.length := by
        rw [horig, List.length_map,
          evalLogitsBatch_length m X g ctr out1 he1]
      have hne : List.zipWith (fun a b => if a = b then (1 : ℝ) else 0)
          orig pert ≠ [] := by
        have hlp : 0 < orig.length := by
          rw [hlen1]; exact List.length_pos.mpr hX
        obtain ⟨-, out2, he2, hpert, -⟩ := predict_ok_elim _ _ _ _ _ _ h2
        have hlen2 : pert.length = X.length := by
          rw [hpert, List.length_map,
            evalLogitsBatch_length _ _ _ _ _ he2, List.length_zipWith,
            gaussNoise, List.length_mapIdx, Nat.min_self]
        apply List.ne_nil_of_length_pos
        rw [List.length_zipWith, hlen1, hlen2, Nat.min_self]
        exact List.length_pos.mpr hX
      constructor
      · rw [← hr]
        exact mean_indicator_bounds _
          (fun x hx => mem_zipWith_indicator orig pert x hx) hne
      · intro hz hper
        rw [perturb_zero X npg hz] at h2
        obtain ⟨-, out2, he2, hpert, -⟩ := predict_ok_elim _ _ _ _ _ _ h2
        have hwin : evalLogitsBatch m X g c1 = evalLogitsBatch m X g ctr := by
          apply evalLogitsBatch_window
          intro j
          rw [hc1]
          exact (hper j).symm
        rw [hwin, he1] at he2
        cases he2
        have hop : pert = orig := by rw [hpert, horig]
        rw [← hr, hop, zipWith_indicator_self,
          mean_replicate_one orig.length]
        rw [hlen1]
        intro h0
        exact hX (List.length_eq_zero.mp h0)

theorem dot_cons (a : ℝ) (w : List ℝ) (b : ℝ) (x : List ℝ) :
    dot (a :: w) (b :: x) = a * b + dot w x := by
  simp [dot]

theorem dot_replicate_zero (n : Nat) (v : List ℝ) :
    dot (List.replicate n 0) v = 0 := by
  induction n generalizing v with
  | zero => rfl
  | succ n ih =>
    cases v with
    | nil => rfl
    | cons b t =>
      rw [List.replicate_succ, dot_cons, ih t]
      ring

theorem dot_replicate_one (v : List ℝ) :
    dot (List.replicate v.length 1) v = v.sum := by
  induction v with
  | nil => rfl
  | cons a t ih =>
    rw [List.length_cons, List.replicate_succ, dot_cons, ih]
    simp

theorem zipWith_replicate_both {α β γ : Type _} (f : α → β → γ) (n : Nat)
    (a : α) (b : β) :
    List.zipWith f (List.replicate n a) (List.replicate n b) =
      List.replicate n (f a b) := by
  induction n with
  | zero => rfl
  | succ n ih => simp [List.replicate_succ, ih]

theorem randn_length (g : Nat → ℝ) (c n : Nat) : (randn g c n).length = n := by
  simp [randn]

theorem randn_eq_replicate (g : Nat → ℝ) (c n : Nat) (a : ℝ)
    (h : ∀ j < n, g (c + j) = a) : randn g c n = List.replicate n a := by
  simp only [randn]
  rw [List.map_congr_left (fun j hj => h j (List.mem_range.mp hj))]
  simp

theorem argmaxIdx_pair (a b : ℝ) :
    argmaxIdx [a, b] = if a < b then 1 else 0 := by
  simp only [argmaxIdx, argmaxGo]

theorem sum_replicate_real (n : Nat) (a : ℝ) :
    (List.replicate n a).sum = n * a := by
  induction n with
  | zero => simp
  | succ n ih =>
    rw [List.replicate_succ, List.sum_cons, ih]
    push_cast
    ring

/-- Both concrete encoders send the input row `[0]` to the latent row
`[0]`. -/
theorem encoder_zero_in (m : Model)
    (hm1 : m.firstLayer = ⟨1, [[0]], [0]⟩) (hm2 : m.midLayers = [])
    (hm3 : m.lastLayer = ⟨1, [[0]], [0]⟩) :
    encoderEvalRow m [0] = .ok [0] := by
  simp [encoderEvalRow, hm1, hm2, hm3, Linear.apply, midLayersEval, dot,
    relu, ebind_ok, epure]

theorem Mzero_encoder : encoderEvalRow Mzero [0] = .ok [0] :=
  encoder_zero_in Mzero rfl rfl rfl

theorem Mcex_encoder : encoderEvalRow Mcex [0] = .ok [0] :=
  encoder_zero_in Mcex rfl rfl rfl

/-- The `Mcex` fusion stack on latent `[0]` and a constant symbolic vector:
logits `(-u, u)` with `u = ReLU(32 s)`. -/
theorem Mcex_integrate (s : ℝ) :
    integrateEvalRow Mcex [0] (List.replicate 32 s) =
      .ok [-(max 0 (32 * s)), max 0 (32 * s)] := by
  have hcomb : ([0] ++ List.replicate 32 s : List ℝ) =
      0 :: List.replicate 32 s := rfl
  have hb128 : (List.replicate 128 (0 : ℝ)) = 0 :: List.replicate 127 0 := rfl
  have hdot : dot (List.replicate 33 1) (0 :: List.replicate 32 s) =
      32 * s := by
    have h33 : (33 : Nat) = (0 :: List.replicate 32 s : List ℝ).length := by
      simp
    rw [h33, dot_replicate_one, List.sum_cons, sum_replicate_real]
    norm_num
  have h1 : Linear.apply ⟨33,
      List.replicate 33 1 :: List.replicate 127 (List.replicate 33 0),
      List.replicate 128 0⟩ (0 :: List.replicate 32 s) =
      .ok (32 * s :: List.replicate 127 0) := by
    simp only [Linear.apply]
    rw [if_pos (by simp), hb128, List.zipWith_cons_cons,
      zipWith_replicate_both, hdot]
    simp only [dot_replicate_zero, add_zero]
  have h2 : relu (32 * s :: List.replicate 127 0) =
      max 0 (32 * s) :: List.replicate 127 0 := by
    simp [relu, List.map_replicate]
  have h3 : Linear.apply ⟨128,
      [(-1 : ℝ) :: List.replicate 127 0, (1 : ℝ) :: List.replicate 127 0],
      [0, 0]⟩ (max 0 (32 * s) :: List.replicate 127 0) =
      .ok [-(max 0 (32 * s)), max 0 (32 * s)] := by
    simp only [Linear.apply]
    rw [if_pos (by simp)]
    simp only [List.zipWith_cons_cons, List.zipWith_nil_right, dot_cons,
      dot_replicate_zero, add_zero, neg_one_mul, one_mul]
  simp only [integrateEvalRow, Mcex, hcomb, h1, ebind_ok, h2, h3]

/-- The all-zero fusion stack of `Mzero` produces logits `[0, 0]` whatever
the symbolic vector (of the right width) contains. -/
theorem Mzero_integrate (sf : List ℝ) (hlen : sf.length = 32) :
    integrateEvalRow Mzero [0] sf = .ok [0, 0] := by
  have hcomb : ([0] ++ sf : List ℝ) = 0 :: sf := rfl
  have h1 : Linear.apply ⟨33, List.replicate 128 (List.replicate 33 0),
      List.replicate 128 0⟩ (0 :: sf) = .ok (List.replicate 128 0) := by
    simp only [Linear.apply]
    rw [if_pos (by simp [hlen]), zipWith_replicate_both]
    simp only [dot_replicate_zero, add_zero]
  have h2 : relu (List.replicate 128 (0 : ℝ)) = List.replicate 128 0 := by
    simp [relu, List.map_replicate]
  have h3 : Linear.apply ⟨128, List.replicate 2 (List.replicate 128 0),
      List.replicate 2 0⟩ (List.replicate 128 0) = .ok [0, 0] := by
    simp only [Linear.apply]
    rw [if_pos (by simp), zipWith_replicate_both]
    simp only [dot_replicate_zero, add_zero]
    rfl
  simp only [integrateEvalRow, Mzero, hcomb, h1, ebind_ok, h2, h3]

theorem Mzero_evalLogits (g : Nat → ℝ) (c : Nat) :
    evalLogitsBatch Mzero [[0]] g c = .ok [[0, 0]] := by
  have hr : Mzero.reasoner = ⟨[], 32⟩ := rfl
  have hI := Mzero_integrate (randn g c 32) (randn_length g c 32)
  simp only [evalLogitsBatch, mapE, Mzero_encoder, ebind_ok, epure, hr,
    symbolicRows, symbolicRow_classify, List.zip_cons_cons, List.zip_nil_right,
    hI]

theorem Mcex_evalLogits (g : Nat → ℝ) (c : Nat) (s : ℝ)
    (hg : ∀ j < 32, g (c + j) = s) :
    evalLogitsBatch Mcex [[0]] g c =
      .ok [[-(max 0 (32 * s)), max 0 (32 * s)]] := by
  have hr : Mcex.reasoner = ⟨[], 32⟩ := rfl
  have hrand : randn g c 32 = List.replicate 32 s :=
    randn_eq_replicate g c 32 s hg
  have hI := Mcex_integrate s
  simp only [evalLogitsBatch, mapE, Mcex_encoder, ebind_ok, epure, hr,
    symbolicRows, symbolicRow_classify, List.zip_cons_cons, List.zip_nil_right,
    hrand, hI]

theorem Mzero_predict (g : Nat → ℝ) (c : Nat) :
    Mzero.predict [[0]] g c = .ok ([0], c + 32) := by
  have ht : Mzero.is_trained = true := rfl
  have hz : Mzero.reasoner.output_size = 32 := rfl
  simp only [Model.predict, ht, if_true, forwardPass_eval, Mzero_evalLogits,
    emap_ok, ebind_ok, epure, hz, List.length_singleton, mul_one,
    List.map_cons, List.map_nil, argmaxIdx_pair]
  norm_num

theorem Mzero_proba (g : Nat → ℝ) (c : Nat) :
    Mzero.predictProba [[0]] g c = .ok ([softmax [0, 0]], c + 32) := by
  have ht : Mzero.is_trained = true := rfl
  have hz : Mzero.reasoner.output_size = 32 := rfl
  simp only [Model.predictProba, ht, if_true, forwardPass_eval,
    Mzero_evalLogits, emap_ok, ebind_ok, epure, hz, List.length_singleton,
    mul_one, List.map_cons, List.map_nil]

theorem Mcex_predict (g : Nat → ℝ) (c : Nat) (s : ℝ)
    (hg : ∀ j < 32, g (c + j) = s) :
    Mcex.predict [[0]] g c =
      .ok ([if -(max 0 (32 * s)) < max 0 (32 * s) then 1 else 0],
        c + 32) := by
  have ht : Mcex.is_trained = true := rfl
  have hz : Mcex.reasoner.output_size = 32 := rfl
  simp only [Model.predict, ht, if_true, forwardPass_eval,
    Mcex_evalLogits g c s hg, emap_ok, ebind_ok, epure, hz,
    List.length_singleton, mul_one, List.map_cons, List.map_nil,
    argmaxIdx_pair]

theorem Mcex_proba (g : Nat → ℝ) (c : Nat) (s : ℝ)
    (hg : ∀ j < 32, g (c + j) = s) :
    Mcex.predictProba [[0]] g c =
      .ok ([softmax [-(max 0 (32 * s)), max 0 (32 * s)]], c + 32) := by
  have ht : Mcex.is_trained = true := rfl
  have hz : Mcex.reasoner.output_size = 32 := rfl
  simp only [Model.predictProba, ht, if_true, forwardPass_eval,
    Mcex_evalLogits g c s hg, emap_ok, ebind_ok, epure, hz,
    List.length_singleton, mul_one, List.map_cons, List.map_nil]

/-- Counterexample to claim C3 as stated: on the trained model state `Mcex`
and the batch `[[0]]`, a `predict` call whose reasoner draws are all 1
returns class 1, while the row argmax of a `predict_proba` call whose
(fresh) reasoner draws are all -1 is class 0 — the two operations disagree
because each call consumes its own `torch.randn` symbolic vectors. -/
theorem c3_predict_disagrees_with_proba_across_calls :
    ¬ ((Mcex.predict [[0]] (fun _ => (1 : ℝ)) 0).map (fun p => p.1) =
       (Mcex.predictProba [[0]] (fun _ => (-1 : ℝ)) 0).map
         (fun p => p.1.map argmaxIdx)) := by
  have e1 : (if -(max 0 (32 * (1 : ℝ))) < max 0 (32 * 1) then (1 : Nat)
      else 0) = 1 := by
    rw [max_eq_right (by norm_num : (0 : ℝ) ≤ 32 * 1), if_pos (by norm_num)]
  have e2 : argmaxIdx [-(max 0 (32 * (-1 : ℝ))), max 0 (32 * (-1))] = 0 := by
    rw [argmaxIdx_pair, max_eq_left (by norm_num : 32 * (-1 : ℝ) ≤ 0),
      if_neg (by norm_num)]
  rw [Mcex_predict (fun _ => 1) 0 1 (fun j _ => rfl),
    Mcex_proba (fun _ => -1) 0 (-1) (fun j _ => rfl)]
  simp only [Except.map, List.map_cons, List.map_nil, argmax_softmax, e1, e2]
  simp

/-- Witness for the amended claim C3 at the concrete trained model `Mzero`
and a shared generator state: both calls succeed and agree. -/
theorem c3_witness :
    Mzero.predict [[0]] (fun _ => 0) 0 = .ok ([0], 32) ∧
    Mzero.predictProba [[0]] (fun _ => 0) 0 = .ok ([softmax [0, 0]], 32) ∧
    ([0] : List Nat) = [softmax [0, 0]].map argmaxIdx := by
  have hp := Mzero_predict (fun _ => 0) 0
  have hq := Mzero_proba (fun _ => 0) 0
  rw [Nat.zero_add] at hp hq
  exact ⟨hp, hq, c3_predict_eq_argmax_proba_same_draws Mzero [[0]]
    (fun _ => 0) 0 [0] [softmax [0, 0]] 32 32 hp hq⟩

/-- Witness for claim C8 at the concrete trained model `Mzero`. -/
theorem c8_witness :
    Mzero.predictProba [[0]] (fun _ => 0) 0 = .ok ([softmax [0, 0]], 32) ∧
    (softmax [0, 0]).sum = 1 ∧
    |(softmax [0, 0]).sum - 1| ≤ 1 / 1000000 := by
  have hq := Mzero_proba (fun _ => 0) 0
  rw [Nat.zero_add] at hq
  have h := c8_predict_proba_rows_sum_to_one Mzero [[0]] (fun _ => 0) 0
    [softmax [0, 0]] 32 hq (softmax [0, 0]) (by simp) (by simp [softmax])
  exact ⟨hq, h.1, h.2⟩

/-- Counterexample to claim C9 as stated: on the trained model state `Mcex`
with zero sampled noise, the robustness score is 0, not 1.0 — the two
`predict` calls inside `_calculate_robustness_score` consume consecutive
stretches of the torch generator (`gSplit` draws 1 for the first pass and
-1 for the second), so the predictions flip although the perturbation is
zero. -/
theorem c9_zero_noise_robustness_not_one :
    calculateRobustnessScore Mcex [[0]] [0] (fun _ _ => 0) gSplit 0 =
      .ok (0, 64) ∧ (0 : ℝ) ≠ 1 := by
  constructor
  · have hpert := perturb_zero [[0]] (fun _ _ => 0) (fun _ _ => rfl)
    have e1 : (if -(max 0 (32 * (1 : ℝ))) < max 0 (32 * 1) then (1 : Nat)
        else 0) = 1 := by
      rw [max_eq_right (by norm_num : (0 : ℝ) ≤ 32 * 1), if_pos (by norm_num)]
    have e2 : (if -(max 0 (32 * (-1 : ℝ))) < max 0 (32 * (-1)) then (1 : Nat)
        else 0) = 0 := by
      rw [max_eq_left (by norm_num : 32 * (-1 : ℝ) ≤ 0), if_neg (by norm_num)]
    have hp1 : Mcex.predict [[0]] gSplit 0 = .ok ([1], 32) := by
      have h := Mcex_predict gSplit 0 1
        (fun j hj => by simp only [gSplit, Nat.zero_add]; rw [if_pos hj])
      rw [e1] at h
      exact h
    have hp2 : Mcex.predict [[0]] gSplit 32 = .ok ([0], 64) := by
      have h := Mcex_predict gSplit 32 (-1)
        (fun j _ => by simp only [gSplit]; rw [if_neg (by omega)])
      rw [e2] at h
      exact h
    simp only [calculateRobustnessScore, hpert, hp1, ebind_ok, hp2, epure]
    norm_num [mean]
  · norm_num

/-- Witness for the amended claim C9: on `Mzero` (whose logits do not depend
on the symbolic draws) with zero noise and a trivially periodic stream the
score is exactly 1 and lies in [0, 1]. -/
theorem c9_witness :
    calculateRobustnessScore Mzero [[0]] [0] (fun _ _ => 0) (fun _ => 0) 0 =
      .ok (1, 64) ∧ (0 : ℝ) ≤ 1 ∧ (1 : ℝ) ≤ 1 ∧ (1 : ℝ) = 1 := by
  have hrun : calculateRobustnessScore Mzero [[0]] [0] (fun _ _ => 0)
      (fun _ => 0) 0 = .ok (1, 64) := by
    have hpert := perturb_zero [[0]] (fun _ _ => 0) (fun _ _ => rfl)
    have hp1 := Mzero_predict (fun _ => 0) 0
    have hp2 := Mzero_predict (fun _ => 0) 32
    rw [Nat.zero_add] at hp1
    have h64 : 32 + 32 = 64 := rfl
    rw [h64] at hp2
    simp only [calculateRobustnessScore, hpert, hp1, ebind_ok, hp2, epure]
    norm_num [mean]
  have h := c9_robustness_bounds_and_zero_noise Mzero [[0]] [0]
    (fun _ _ => 0) (fun _ => 0) 0 1 64 hrun (by simp)
  exact ⟨hrun, h.1.1, h.1.2, h.2 (fun _ _ => rfl) (fun _ => rfl)⟩

end NeuroSym
